import Mathlib

/-
Verification of the Cart-to-Order transition subsystem of the VibeFashion
backend (src/backend/main.py, src/backend/schemas.py).

Shallow embedding notes:
- The Mongo collections "cart" and "order" are modelled by explicit lists of
  documents inside a `DB` state record; `find_one` returns the first document
  matching the filter, `insert_one` appends, and `update_one` with upsert
  rewrites the first matching document (or inserts when none matches), exactly
  as the endpoints in main.py use them (filters are always `{"user_id": ...}`).
- Document `_id` generation is modelled by a counter `nextId` in the state.
- Cart line items are dicts `{"product_id": str, "qty": int}` in the source;
  `qty` is a Python arbitrary-precision int, so it is `Int` here.
- Order documents carry caller-supplied `items : List[dict]`, `address : dict`
  and `total : float`.  The endpoints never inspect or compute with these
  values (they are stored and read back verbatim), so `items` and `address`
  are modelled parametrically by a type `α`, and the numeric payload `total`
  by `Int`: pass-through behaviour and the sign of `total` are preserved
  exactly by any value domain.
-/

/-- A cart line item, `{"product_id": ..., "qty": ...}` in `add_to_cart`. -/
structure CartItem where
  product_id : String
  qty : Int
  deriving DecidableEq

/-- A document of the "cart" collection: `{"_id": ..., "user_id": ...,
"items": [...]}` (schemas.Cart plus the store-generated id). -/
structure CartDoc where
  oid : Nat
  user_id : String
  items : List CartItem
  deriving DecidableEq

/-- A document of the "order" collection (schemas.Order): caller-opaque
`items` and `address` have type `α`. -/
structure OrderDoc (α : Type) where
  user_id : String
  items : List α
  total : Int
  status : String
  payment_method : String
  address : α
  deriving DecidableEq

/-- The document-store state seen by the cart/order endpoints: the "cart"
collection, the "order" collection (with store-generated ids), and the
id-generation counter. -/
structure DB (α : Type) where
  carts : List CartDoc
  orders : List (Nat × OrderDoc α)
  nextId : Nat
  deriving DecidableEq

/-- The store with no documents. -/
def emptyDB {α : Type} : DB α := ⟨[], [], 0⟩

/-- `db["cart"].find_one({"user_id": uid})`: first document matching the
filter, if any. -/
def findOneCart {α : Type} (db : DB α) (uid : String) : Option CartDoc :=
  db.carts.find? (fun c => c.user_id == uid)

/-- `db["cart"].insert_one({"user_id": uid, "items": items})`: appends the
document with a freshly generated id (which pymongo also reports back on the
inserted document). -/
def insertOneCart {α : Type} (db : DB α) (uid : String) (items : List CartItem) :
    CartDoc × DB α :=
  let c : CartDoc := ⟨db.nextId, uid, items⟩
  (c, { db with carts := db.carts ++ [c], nextId := db.nextId + 1 })

/-- Rewrite the first document matching `{"user_id": uid}` to carry `items`
(the `$set` bodies in main.py always re-assert the same `user_id` as the
filter, so only `items` changes). -/
def setFirstMatch (uid : String) (items : List CartItem) :
    List CartDoc → List CartDoc
  | [] => []
  | c :: rest =>
    if c.user_id == uid then { c with items := items } :: rest
    else c :: setFirstMatch uid items rest

/-- `db["cart"].update_one({"user_id": uid}, {"$set": ...}, upsert=True)`:
update the first matching document, or insert when none matches. -/
def updateOneCartUpsert {α : Type} (db : DB α) (uid : String)
    (items : List CartItem) : DB α :=
  if db.carts.any (fun c => c.user_id == uid) then
    { db with carts := setFirstMatch uid items db.carts }
  else
    (insertOneCart db uid items).2

/-- Modelled from the spec: `create_document` lives in database.py, which is
not under src/.  Per the spec it persists the document and returns "a newly
generated identifier", and "order creation is a single atomic write at the
store level". -/
def create_document_order {α : Type} (db : DB α) (o : OrderDoc α) : Nat × DB α :=
  (db.nextId,
   { db with
     orders := db.orders ++ [(db.nextId, o)]
     nextId := db.nextId + 1 })

/-- The upsert loop of `add_to_cart` (main.py lines 209-216): scan `items`
for the first entry with this `product_id`, increment its `qty` and stop;
append `{"product_id": pid, "qty": qty}` when no entry matches. -/
def upsertItem : List CartItem → String → Int → List CartItem
  | [], pid, qty => [⟨pid, qty⟩]
  | it :: rest, pid, qty =>
    if it.product_id == pid then { it with qty := it.qty + qty } :: rest
    else it :: upsertItem rest pid qty

/-- `get_cart` (main.py lines 194-201): return the user's cart; when none
exists, insert `{"user_id": uid, "items": []}` and return it. -/
def get_cart {α : Type} (db : DB α) (uid : String) : CartDoc × DB α :=
  match findOneCart db uid with
  | some c => (c, db)
  | none => insertOneCart db uid []

/-- The read phase of `add_to_cart` (main.py lines 205-207): fetch the cart,
defaulting to an empty item list when none exists. -/
def add_read {α : Type} (db : DB α) (uid : String) : List CartItem :=
  match findOneCart db uid with
  | some c => c.items
  | none => []

/-- The write phase of `add_to_cart` (main.py lines 209-217): merge the item
into the fetched list and write the whole cart back with upsert. -/
def add_write {α : Type} (db : DB α) (uid pid : String) (qty : Int)
    (items : List CartItem) : DB α :=
  updateOneCartUpsert db uid (upsertItem items pid qty)

/-- `add_to_cart` (main.py lines 203-218): a non-atomic read-modify-write of
the user's cart document. -/
def add_to_cart {α : Type} (db : DB α) (uid pid : String) (qty : Int) : DB α :=
  add_write db uid pid qty (add_read db uid)

/-- `create_order` (main.py lines 229-241): build the Order with the
schema-default `status = "new"` (CreateOrderPayload has no status field, so
the request body cannot set it), persist it, then clear the user's cart by
`update_one({"user_id": uid}, {"$set": {"items": []}}, upsert=True)`. -/
def create_order {α : Type} (db : DB α) (uid : String) (its : List α)
    (total : Int) (pm : String) (addr : α) : Nat × DB α :=
  let o : OrderDoc α := ⟨uid, its, total, "new", pm, addr⟩
  let r := create_document_order db o
  (r.1, updateOneCartUpsert r.2 uid [])

/-- `create_order` with a fallible order write.  When `ok` is false the
order write fails: modelled from the spec, the write is "a single atomic
write at the store level", so the failed store is unchanged, and the raised
exception propagates out of the endpoint before the cart update on line 240
runs.  The returned `DB` is the store state when the endpoint exits
(normally or by exception). -/
def create_order_fallible {α : Type} (ok : Bool) (db : DB α) (uid : String)
    (its : List α) (total : Int) (pm : String) (addr : α) :
    Except Unit Nat × DB α :=
  if ok then
    let r := create_order db uid its total pm addr
    (Except.ok r.1, r.2)
  else
    (Except.error (), db)

/-- The two interleaved `add_to_cart(uid, pid, 1)` calls of the lost-update
scenario: both read phases run against the same store state, then the two
write phases run in order, each from its own read. -/
def twoConcurrentAdds {α : Type} (db : DB α) (uid pid : String) : DB α :=
  let r1 := add_read db uid
  let r2 := add_read db uid
  let db1 := add_write db uid pid 1 r1
  add_write db1 uid pid 1 r2

/-- One exposed cart/order operation (the three endpoints of the core). -/
inductive Op (α : Type) where
  | opGetCart (uid : String)
  | opAddItem (uid pid : String) (qty : Int)
  | opCreateOrder (uid : String) (its : List α) (total : Int)
      (pm : String) (addr : α)

/-- Run one exposed operation against the store. -/
def runOp {α : Type} (db : DB α) : Op α → DB α
  | .opGetCart uid => (get_cart db uid).2
  | .opAddItem uid pid qty => add_to_cart db uid pid qty
  | .opCreateOrder uid its total pm addr =>
      (create_order db uid its total pm addr).2

/-- Run a sequence of exposed operations against the store. -/
def runOps {α : Type} (db : DB α) (ops : List (Op α)) : DB α :=
  ops.foldl runOp db

/-- An operation carries a positive quantity (trivially true for the
non-add operations). -/
def posOp {α : Type} : Op α → Prop
  | .opAddItem _ _ qty => 1 ≤ qty
  | _ => True

instance posOpDecidable {α : Type} : (op : Op α) → Decidable (posOp op)
  | .opAddItem _ _ qty => inferInstanceAs (Decidable (1 ≤ qty))
  | .opGetCart _ => inferInstanceAs (Decidable True)
  | .opCreateOrder _ _ _ _ _ => inferInstanceAs (Decidable True)

/- Helper lemmas about the upsert loop on cart item lists. -/

theorem upsertItem_found {l : List CartItem} {pid : String} (qty : Int)
    (h : ∃ it ∈ l, it.product_id = pid) :
    ∃ l₁ it l₂, l = l₁ ++ it :: l₂ ∧ it.product_id = pid ∧
      (∀ x ∈ l₁, x.product_id ≠ pid) ∧
      upsertItem l pid qty = l₁ ++ { it with qty := it.qty + qty } :: l₂ := by
  induction l with
  | nil => simp at h
  | cons hd tl ih =>
    by_cases hhd : hd.product_id = pid
    · exact ⟨[], hd, tl, by simp, hhd, by simp,
        by simp [upsertItem, hhd]⟩
    · have htl : ∃ it ∈ tl, it.product_id = pid := by
        rcases h with ⟨it, hit, hpid⟩
        rcases List.mem_cons.mp hit with rfl | hmem
        · exact absurd hpid hhd
        · exact ⟨it, hmem, hpid⟩
      rcases ih htl with ⟨l₁, it, l₂, heq, hpid, hnone, hup⟩
      refine ⟨hd :: l₁, it, l₂, by simp [heq], hpid, ?_, ?_⟩
      · intro x hx
        rcases List.mem_cons.mp hx with rfl | hmem
        · exact hhd
        · exact hnone x hmem
      · have hbeq : (hd.product_id == pid) = false := by
          simp [hhd]
        simp [upsertItem, hbeq, hup]

theorem upsertItem_not_found {l : List CartItem} {pid : String} (qty : Int)
    (h : ∀ it ∈ l, it.product_id ≠ pid) :
    upsertItem l pid qty = l ++ [⟨pid, qty⟩] := by
  induction l with
  | nil => rfl
  | cons hd tl ih =>
    have hbeq : (hd.product_id == pid) = false := by
      simp [h hd (List.mem_cons_self hd tl)]
    simp [upsertItem, hbeq, ih (fun it hit => h it (List.mem_cons_of_mem hd hit))]

theorem upsertItem_filter_ne (l : List CartItem) (pid : String) (qty : Int) :
    (upsertItem l pid qty).filter (fun it => !(it.product_id == pid)) =
      l.filter (fun it => !(it.product_id == pid)) := by
  induction l with
  | nil => simp [upsertItem]
  | cons hd tl ih =>
    by_cases hhd : hd.product_id = pid
    · have hbeq : (hd.product_id == pid) = true := by simp [hhd]
      simp [upsertItem, hbeq, List.filter_cons]
    · have hbeq : (hd.product_id == pid) = false := by simp [hhd]
      simp [upsertItem, hbeq, List.filter_cons, ih]

theorem upsertItem_qty_ge {l : List CartItem} {pid : String} {qty : Int}
    (h1 : ∀ it ∈ l, 1 ≤ it.qty) (hq : 1 ≤ qty) :
    ∀ it ∈ upsertItem l pid qty, 1 ≤ it.qty := by
  induction l with
  | nil =>
    intro it hit
    simp [upsertItem] at hit
    simp [hit, hq]
  | cons hd tl ih =>
    intro it hit
    by_cases hhd : hd.product_id = pid
    · have hbeq : (hd.product_id == pid) = true := by simp [hhd]
      simp [upsertItem, hbeq] at hit
      rcases hit with rfl | hmem
      · have := h1 hd (List.mem_cons_self hd tl)
        simp only []
        omega
      · exact h1 it (List.mem_cons_of_mem hd hmem)
    · have hbeq : (hd.product_id == pid) = false := by simp [hhd]
      simp only [upsertItem, hbeq, Bool.false_eq_true, if_false] at hit
      rcases List.mem_cons.mp hit with rfl | hmem
      · exact h1 it (List.mem_cons_self it tl)
      · exact ih (fun x hx => h1 x (List.mem_cons_of_mem hd hx)) it hmem

theorem upsertItem_map_pid_nodup {l : List CartItem} {pid : String} (qty : Int)
    (h : (l.map (fun it => it.product_id)).Nodup) :
    ((upsertItem l pid qty).map (fun it => it.product_id)).Nodup := by
  by_cases hex : ∃ it ∈ l, it.product_id = pid
  · rcases upsertItem_found qty hex with ⟨l₁, it, l₂, heq, hpid, _, hup⟩
    rw [hup]
    have : (l₁ ++ { it with qty := it.qty + qty } :: l₂).map
        (fun x => x.product_id) = l.map (fun x => x.product_id) := by
      simp [heq]
    rw [this]
    exact h
  · push_neg at hex
    rw [upsertItem_not_found qty hex]
    rw [List.map_append, List.nodup_append]
    refine ⟨h, by simp, ?_⟩
    intro a ha hb
    simp at hb
    rcases List.mem_map.mp ha with ⟨x, hx, rfl⟩
    exact hex x hx hb

/- Helper lemmas about the cart-collection update primitives. -/

theorem setFirstMatch_map_user (uid : String) (its : List CartItem)
    (l : List CartDoc) :
    (setFirstMatch uid its l).map (fun c => c.user_id) =
      l.map (fun c => c.user_id) := by
  induction l with
  | nil => rfl
  | cons hd tl ih =>
    by_cases hhd : hd.user_id = uid
    · simp [setFirstMatch, hhd]
    · have hbeq : (hd.user_id == uid) = false := by simp [hhd]
      simp [setFirstMatch, hbeq, ih]

theorem setFirstMatch_findq (uid : String) (its : List CartItem)
    (l : List CartDoc) :
    (setFirstMatch uid its l).find? (fun c => c.user_id == uid) =
      (l.find? (fun c => c.user_id == uid)).map
        (fun c => { c with items := its }) := by
  induction l with
  | nil => rfl
  | cons hd tl ih =>
    by_cases hhd : hd.user_id = uid
    · have hbeq : (hd.user_id == uid) = true := by simp [hhd]
      simp [setFirstMatch, hbeq]
    · have hbeq : (hd.user_id == uid) = false := by simp [hhd]
      simp [setFirstMatch, hbeq, ih]

theorem setFirstMatch_mem {uid : String} {its : List CartItem}
    {l : List CartDoc} {c : CartDoc} (h : c ∈ setFirstMatch uid its l) :
    c ∈ l ∨ c.items = its := by
  induction l with
  | nil => simp [setFirstMatch] at h
  | cons hd tl ih =>
    by_cases hhd : hd.user_id = uid
    · have hbeq : (hd.user_id == uid) = true := by simp [hhd]
      simp only [setFirstMatch, hbeq, if_true] at h
      rcases List.mem_cons.mp h with rfl | hmem
      · right; rfl
      · left; exact List.mem_cons_of_mem hd hmem
    · have hbeq : (hd.user_id == uid) = false := by simp [hhd]
      simp only [setFirstMatch, hbeq, Bool.false_eq_true, if_false] at h
      rcases List.mem_cons.mp h with rfl | hmem
      · left; exact List.mem_cons_self c tl
      · rcases ih hmem with hmem2 | hit
        · left; exact List.mem_cons_of_mem hd hmem2
        · right; exact hit

theorem updateOne_orders {α : Type} (db : DB α) (uid : String)
    (its : List CartItem) :
    (updateOneCartUpsert db uid its).orders = db.orders := by
  unfold updateOneCartUpsert insertOneCart
  split <;> rfl

theorem updateOne_map_user {α : Type} (db : DB α) (uid : String)
    (its : List CartItem) :
    (updateOneCartUpsert db uid its).carts.map (fun c => c.user_id) =
      if db.carts.any (fun c => c.user_id == uid) then
        db.carts.map (fun c => c.user_id)
      else db.carts.map (fun c => c.user_id) ++ [uid] := by
  unfold updateOneCartUpsert insertOneCart
  split
  · simp [setFirstMatch_map_user]
  · simp

theorem updateOne_mem {α : Type} {db : DB α} {uid : String}
    {its : List CartItem} {c : CartDoc}
    (h : c ∈ (updateOneCartUpsert db uid its).carts) :
    c ∈ db.carts ∨ c.items = its := by
  unfold updateOneCartUpsert insertOneCart at h
  split at h
  · exact setFirstMatch_mem h
  · simp at h
    rcases h with hmem | rfl
    · left; exact hmem
    · right; rfl

theorem findOne_updateOne {α : Type} (db : DB α) (uid : String)
    (its : List CartItem) :
    ∃ c, findOneCart (updateOneCartUpsert db uid its) uid = some c ∧
      c.items = its ∧ c.user_id = uid := by
  unfold findOneCart updateOneCartUpsert insertOneCart
  by_cases hany : db.carts.any (fun c => c.user_id == uid)
  · simp only [hany, if_true]
    have hsome : (db.carts.find? (fun c => c.user_id == uid)).isSome := by
      rw [List.find?_isSome]
      rcases List.any_eq_true.mp hany with ⟨x, hx, hpx⟩
      exact ⟨x, hx, hpx⟩
    rcases Option.isSome_iff_exists.mp hsome with ⟨c0, hc0⟩
    refine ⟨{ c0 with items := its }, ?_, rfl, ?_⟩
    · simp [setFirstMatch_findq, hc0]
    · have := List.find?_some hc0
      simpa using this
  · simp only [hany, Bool.false_eq_true, if_false]
    have hnone : db.carts.find? (fun c => c.user_id == uid) = none := by
      rw [List.find?_eq_none]
      intro x hx hpx
      exact hany (List.any_eq_true.mpr ⟨x, hx, hpx⟩)
    refine ⟨⟨db.nextId, uid, its⟩, ?_, rfl, rfl⟩
    simp [List.find?_append, hnone]

theorem get_cart_found {α : Type} {db : DB α} {uid : String} {c : CartDoc}
    (h : findOneCart db uid = some c) : get_cart db uid = (c, db) := by
  unfold get_cart
  rw [h]

theorem get_cart_not_found {α : Type} {db : DB α} {uid : String}
    (h : findOneCart db uid = none) :
    get_cart db uid = (⟨db.nextId, uid, []⟩,
      { db with
        carts := db.carts ++ [⟨db.nextId, uid, []⟩]
        nextId := db.nextId + 1 }) := by
  unfold get_cart insertOneCart
  rw [h]

/- Reachability invariants over the store state. -/

/-- No two cart documents share a user id. -/
def usersNodup {α : Type} (db : DB α) : Prop :=
  (db.carts.map (fun c => c.user_id)).Nodup

/-- In each cart document, no two line items share a product id. -/
def cartsNodupPid {α : Type} (db : DB α) : Prop :=
  ∀ c ∈ db.carts, (c.items.map (fun it => it.product_id)).Nodup

/-- In each cart document, every line item has quantity at least one. -/
def cartsQtyPos {α : Type} (db : DB α) : Prop :=
  ∀ c ∈ db.carts, ∀ it ∈ c.items, 1 ≤ it.qty

theorem notMem_of_any_false {α : Type} {db : DB α} {uid : String}
    (h : db.carts.any (fun c => c.user_id == uid) = false) :
    uid ∉ db.carts.map (fun c => c.user_id) := by
  intro hmem
  rcases List.mem_map.mp hmem with ⟨c, hc, hcu⟩
  have : db.carts.any (fun c => c.user_id == uid) = true :=
    List.any_eq_true.mpr ⟨c, hc, by simp [hcu]⟩
  rw [h] at this
  exact Bool.false_ne_true this

theorem updateOne_usersNodup {α : Type} {db : DB α} (uid : String)
    (its : List CartItem) (h : usersNodup db) :
    usersNodup (updateOneCartUpsert db uid its) := by
  unfold usersNodup
  rw [updateOne_map_user]
  split
  · exact h
  · rw [List.nodup_append]
    refine ⟨h, by simp, ?_⟩
    intro a ha hb
    simp at hb
    subst hb
    next hany => exact notMem_of_any_false (Bool.eq_false_iff.mpr hany) ha

theorem updateOne_items_pred {α : Type} {P : List CartItem → Prop}
    {db : DB α} {uid : String} {its : List CartItem}
    (h : ∀ c ∈ db.carts, P c.items) (hits : P its) :
    ∀ c ∈ (updateOneCartUpsert db uid its).carts, P c.items := by
  intro c hc
  rcases updateOne_mem hc with hmem | hit
  · exact h c hmem
  · rw [hit]; exact hits

theorem add_read_pred {α : Type} {P : List CartItem → Prop} {db : DB α}
    {uid : String} (h : ∀ c ∈ db.carts, P c.items) (hnil : P []) :
    P (add_read db uid) := by
  unfold add_read
  cases hf : findOneCart db uid with
  | some c => exact h c (List.mem_of_find?_eq_some hf)
  | none => exact hnil

theorem runOp_usersNodup {α : Type} {db : DB α} (op : Op α)
    (h : usersNodup db) : usersNodup (runOp db op) := by
  cases op with
  | opGetCart uid =>
    show usersNodup (get_cart db uid).2
    cases hf : findOneCart db uid with
    | some c => rw [get_cart_found hf]; exact h
    | none =>
      rw [get_cart_not_found hf]
      unfold usersNodup at h ⊢
      simp only [List.map_append, List.map_cons, List.map_nil]
      rw [List.nodup_append]
      refine ⟨h, by simp, ?_⟩
      intro a ha hb
      simp at hb
      subst hb
      rcases List.mem_map.mp ha with ⟨c, hc, hcu⟩
      have := List.find?_eq_none.mp hf c hc
      simp [hcu] at this
  | opAddItem uid pid qty =>
    exact updateOne_usersNodup uid _ h
  | opCreateOrder uid its total pm addr =>
    show usersNodup (create_order db uid its total pm addr).2
    unfold create_order
    refine updateOne_usersNodup uid [] ?_
    exact h

theorem runOp_cartsNodupPid {α : Type} {db : DB α} (op : Op α)
    (h : cartsNodupPid db) : cartsNodupPid (runOp db op) := by
  cases op with
  | opGetCart uid =>
    show cartsNodupPid (get_cart db uid).2
    cases hf : findOneCart db uid with
    | some c => rw [get_cart_found hf]; exact h
    | none =>
      rw [get_cart_not_found hf]
      intro c hc
      simp only [List.mem_append, List.mem_singleton] at hc
      rcases hc with hmem | rfl
      · exact h c hmem
      · simp
  | opAddItem uid pid qty =>
    unfold cartsNodupPid at h ⊢
    refine updateOne_items_pred
      (P := fun l => (l.map (fun it => it.product_id)).Nodup) h ?_
    exact upsertItem_map_pid_nodup qty
      (add_read_pred (P := fun l => (l.map (fun it => it.product_id)).Nodup)
        h (by simp))
  | opCreateOrder uid its total pm addr =>
    show cartsNodupPid (create_order db uid its total pm addr).2
    unfold cartsNodupPid at h ⊢
    unfold create_order
    have h2 : ∀ c ∈ (create_document_order db
        ⟨uid, its, total, "new", pm, addr⟩).2.carts,
        (List.map (fun it => it.product_id) c.items).Nodup := h
    refine updateOne_items_pred
      (P := fun l => (l.map (fun it => it.product_id)).Nodup) h2 ?_
    simp

theorem runOp_cartsQtyPos {α : Type} {db : DB α} {op : Op α}
    (h : cartsQtyPos db) (hq : posOp op) : cartsQtyPos (runOp db op) := by
  cases op with
  | opGetCart uid =>
    show cartsQtyPos (get_cart db uid).2
    cases hf : findOneCart db uid with
    | some c => rw [get_cart_found hf]; exact h
    | none =>
      rw [get_cart_not_found hf]
      intro c hc
      simp only [List.mem_append, List.mem_singleton] at hc
      rcases hc with hmem | rfl
      · exact h c hmem
      · simp
  | opAddItem uid pid qty =>
    unfold cartsQtyPos at h ⊢
    refine updateOne_items_pred
      (P := fun l => ∀ it ∈ l, 1 ≤ it.qty) h ?_
    exact upsertItem_qty_ge
      (add_read_pred (P := fun l => ∀ it ∈ l, 1 ≤ it.qty) h (by simp)) hq
  | opCreateOrder uid its total pm addr =>
    show cartsQtyPos (create_order db uid its total pm addr).2
    unfold cartsQtyPos at h ⊢
    unfold create_order
    have h2 : ∀ c ∈ (create_document_order db
        ⟨uid, its, total, "new", pm, addr⟩).2.carts,
        ∀ it ∈ c.items, 1 ≤ it.qty := h
    refine updateOne_items_pred
      (P := fun l => ∀ it ∈ l, 1 ≤ it.qty) h2 ?_
    simp

theorem runOps_usersNodup {α : Type} {db : DB α} (ops : List (Op α))
    (h : usersNodup db) : usersNodup (runOps db ops) := by
  induction ops generalizing db with
  | nil => exact h
  | cons op rest ih => exact ih (runOp_usersNodup op h)

theorem runOps_cartsNodupPid {α : Type} {db : DB α} (ops : List (Op α))
    (h : cartsNodupPid db) : cartsNodupPid (runOps db ops) := by
  induction ops generalizing db with
  | nil => exact h
  | cons op rest ih => exact ih (runOp_cartsNodupPid op h)

theorem runOps_cartsQtyPos {α : Type} {db : DB α} {ops : List (Op α)}
    (h : cartsQtyPos db) (hq : ∀ op ∈ ops, posOp op) :
    cartsQtyPos (runOps db ops) := by
  induction ops generalizing db with
  | nil => exact h
  | cons op rest ih =>
    exact ih (runOp_cartsQtyPos h (hq op (List.mem_cons_self op rest)))
      (fun x hx => hq x (List.mem_cons_of_mem op hx))

/- Helper lemmas: the exposed operations never rewrite existing order
documents, they can only append new ones. -/

theorem runOp_orders {α : Type} (db : DB α) (op : Op α) :
    ∃ tail, (runOp db op).orders = db.orders ++ tail := by
  cases op with
  | opGetCart uid =>
    refine ⟨[], ?_⟩
    show (get_cart db uid).2.orders = _
    cases hf : findOneCart db uid with
    | some c => rw [get_cart_found hf]; simp
    | none => rw [get_cart_not_found hf]; simp
  | opAddItem uid pid qty =>
    refine ⟨[], ?_⟩
    show (updateOneCartUpsert db uid _).orders = _
    rw [updateOne_orders]
    simp
  | opCreateOrder uid its total pm addr =>
    refine ⟨[(db.nextId, ⟨uid, its, total, "new", pm, addr⟩)], ?_⟩
    show (updateOneCartUpsert (create_document_order db _).2 uid []).orders = _
    rw [updateOne_orders]
    rfl

theorem runOps_orders {α : Type} (db : DB α) (ops : List (Op α)) :
    ∃ tail, (runOps db ops).orders = db.orders ++ tail := by
  induction ops generalizing db with
  | nil => exact ⟨[], by simp [runOps]⟩
  | cons op rest ih =>
    rcases ih (runOp db op) with ⟨t1, ht1⟩
    rcases runOp_orders db op with ⟨t0, ht0⟩
    refine ⟨t0 ++ t1, ?_⟩
    show (runOps (runOp db op) rest).orders = _
    rw [ht1, ht0, List.append_assoc]

/-- Filtering for `pid` in a list whose only `pid`-entry is `x` returns
exactly `[x]`. -/
theorem filter_single_match (l₁ l₂ : List CartItem) (pid : String)
    (x : CartItem) (hx : x.product_id = pid)
    (h : ∀ y ∈ l₁ ++ l₂, y.product_id ≠ pid) :
    (l₁ ++ x :: l₂).filter (fun y => y.product_id == pid) = [x] := by
  have h1 : l₁.filter (fun y => y.product_id == pid) = [] := by
    rw [List.filter_eq_nil_iff]
    intro a ha
    simp [h a (List.mem_append_left l₂ ha)]
  have h2 : l₂.filter (fun y => y.product_id == pid) = [] := by
    rw [List.filter_eq_nil_iff]
    intro a ha
    simp [h a (List.mem_append_right l₁ ha)]
  rw [List.filter_append, List.filter_cons]
  simp [h1, h2, hx]

/- Claim theorems. -/

/-- C1: when the user's cart already contains an entry for `pid`,
`add_to_cart` updates only the first such entry, adding the requested
quantity to its old quantity (accumulate, never overwrite); the number of
line items does not change, and when the cart satisfies the uniqueness
invariant the resulting cart has exactly one line item for `pid`, with
`qty` equal to the old quantity plus the requested one. -/
theorem add_to_cart_accumulates {α : Type} (db : DB α) (uid pid : String)
    (qty : Int) (h : ∃ it ∈ add_read db uid, it.product_id = pid) :
    ∃ c, findOneCart (add_to_cart db uid pid qty) uid = some c ∧
      c.items.length = (add_read db uid).length ∧
      ∃ l₁ it l₂, add_read db uid = l₁ ++ it :: l₂ ∧ it.product_id = pid ∧
        (∀ x ∈ l₁, x.product_id ≠ pid) ∧
        c.items = l₁ ++ { it with qty := it.qty + qty } :: l₂ ∧
        ((∀ x ∈ l₁ ++ l₂, x.product_id ≠ pid) →
          c.items.filter (fun x => x.product_id == pid) =
            [{ it with qty := it.qty + qty }]) := by
  rcases findOne_updateOne db uid (upsertItem (add_read db uid) pid qty) with
    ⟨c, hc, hit, hu⟩
  rcases upsertItem_found qty h with ⟨l₁, it, l₂, heq, hpid, hnone, hup⟩
  refine ⟨c, hc, ?_, l₁, it, l₂, heq, hpid, hnone, ?_, ?_⟩
  · rw [hit, hup, heq]; simp
  · rw [hit, hup]
  · intro huniq
    rw [hit, hup]
    exact filter_single_match l₁ l₂ pid _ hpid huniq

/-- C1 witness: a cart holding `{"p1": 2}` receives another 3 units of
`p1`. -/
theorem add_to_cart_accumulates_witness :
    ∃ c, findOneCart (add_to_cart
        (DB.mk (α := Unit) [⟨0, "u1", [⟨"p1", 2⟩]⟩] [] 1)
        "u1" "p1" 3) "u1" = some c ∧
      c.items.length =
        (add_read (DB.mk (α := Unit) [⟨0, "u1", [⟨"p1", 2⟩]⟩] [] 1) "u1").length ∧
      ∃ l₁ it l₂,
        add_read (DB.mk (α := Unit) [⟨0, "u1", [⟨"p1", 2⟩]⟩] [] 1) "u1" =
          l₁ ++ it :: l₂ ∧ it.product_id = "p1" ∧
        (∀ x ∈ l₁, x.product_id ≠ "p1") ∧
        c.items = l₁ ++ { it with qty := it.qty + 3 } :: l₂ ∧
        ((∀ x ∈ l₁ ++ l₂, x.product_id ≠ "p1") →
          c.items.filter (fun x => x.product_id == "p1") =
            [{ it with qty := it.qty + 3 }]) :=
  add_to_cart_accumulates (DB.mk [⟨0, "u1", [⟨"p1", 2⟩]⟩] [] 1) "u1" "p1" 3
    (by decide)

/-- C2: `create_order` persists the order with status `"new"` and clears the
cart: a subsequent `get_cart` for that user returns an empty item list, for
every prior cart state. -/
theorem create_order_clears_cart {α : Type} (db : DB α) (uid : String)
    (its : List α) (total : Int) (pm : String) (addr : α) :
    (create_order db uid its total pm addr).2.orders =
      db.orders ++ [((create_order db uid its total pm addr).1,
        ⟨uid, its, total, "new", pm, addr⟩)] ∧
    (get_cart (create_order db uid its total pm addr).2 uid).1.items = [] := by
  constructor
  · show (updateOneCartUpsert (create_document_order db
      ⟨uid, its, total, "new", pm, addr⟩).2 uid []).orders = _
    rw [updateOne_orders]
    rfl
  · rcases findOne_updateOne (create_document_order db
      ⟨uid, its, total, "new", pm, addr⟩).2 uid [] with ⟨c, hc, hcit, hcu⟩
    show (get_cart (updateOneCartUpsert (create_document_order db
      ⟨uid, its, total, "new", pm, addr⟩).2 uid []) uid).1.items = []
    rw [get_cart_found hc]
    exact hcit

/-- C3: when the order write fails, `create_order` leaves the store — in
particular the user's cart — completely unchanged (the cart update on
main.py line 240 is only reached after the order write succeeds), persists
no partial order document, and propagates the error to the caller. -/
theorem create_order_failure_no_mutation {α : Type} (db : DB α)
    (uid : String) (its : List α) (total : Int) (pm : String) (addr : α) :
    (create_order_fallible false db uid its total pm addr).1 =
      Except.error () ∧
    (create_order_fallible false db uid its total pm addr).2.carts =
      db.carts ∧
    (create_order_fallible false db uid its total pm addr).2.orders =
      db.orders ∧
    (create_order_fallible false db uid its total pm addr).2 = db :=
  ⟨rfl, rfl, rfl, rfl⟩

/-- C6: when no entry matches `pid`, the upsert loop appends the new entry
at the end; in every case the non-matching entries keep their exact values
and relative order, and `add_to_cart` never changes the `user_id` of any
stored cart (it at most appends a fresh cart document for `uid`). -/
theorem add_to_cart_append_frame {α : Type} (db : DB α)
    (l : List CartItem) (uid pid : String) (qty : Int) :
    ((∀ it ∈ l, it.product_id ≠ pid) →
      upsertItem l pid qty = l ++ [⟨pid, qty⟩]) ∧
    ((upsertItem l pid qty).filter (fun it => !(it.product_id == pid)) =
      l.filter (fun it => !(it.product_id == pid))) ∧
    ((add_to_cart db uid pid qty).carts.map (fun c => c.user_id) =
      if db.carts.any (fun c => c.user_id == uid) then
        db.carts.map (fun c => c.user_id)
      else db.carts.map (fun c => c.user_id) ++ [uid]) :=
  ⟨fun h => upsertItem_not_found qty h,
   upsertItem_filter_ne l pid qty,
   updateOne_map_user db uid (upsertItem (add_read db uid) pid qty)⟩

/-- C6 witness: adding `p1` to a cart holding only `p2` appends at the end
and leaves the `p2` entry and the cart's user id untouched. -/
theorem add_to_cart_append_frame_witness :
    upsertItem [⟨"p2", 1⟩] "p1" 3 = [⟨"p2", 1⟩, ⟨"p1", 3⟩] ∧
    (upsertItem [⟨"p2", 1⟩] "p1" 3).filter
        (fun it => !(it.product_id == "p1")) =
      [CartItem.mk "p2" 1].filter (fun it => !(it.product_id == "p1")) ∧
    (add_to_cart (DB.mk (α := Unit) [⟨0, "u1", [⟨"p2", 1⟩]⟩] [] 1)
        "u1" "p1" 3).carts.map (fun c => c.user_id) = ["u1"] := by
  have h := add_to_cart_append_frame
    (DB.mk (α := Unit) [⟨0, "u1", [⟨"p2", 1⟩]⟩] [] 1) [⟨"p2", 1⟩] "u1" "p1" 3
  refine ⟨h.1 (by decide), h.2.1, ?_⟩
  have h3 := h.2.2
  simpa using h3

/-- C5: `get_cart` never fails on absence: the returned cart always belongs
to `uid` and is persisted; an existing cart is returned with the store
untouched, and when none exists the empty cart `{user_id, items: []}` is
created, persisted and returned (absence is never surfaced as not-found). -/
theorem get_cart_get_or_create {α : Type} (db : DB α) (uid : String) :
    (get_cart db uid).1.user_id = uid ∧
    findOneCart (get_cart db uid).2 uid = some (get_cart db uid).1 ∧
    (∀ c, findOneCart db uid = some c → get_cart db uid = (c, db)) ∧
    (findOneCart db uid = none →
      (get_cart db uid).1 = ⟨db.nextId, uid, []⟩ ∧
      (get_cart db uid).2.carts = db.carts ++ [⟨db.nextId, uid, []⟩]) := by
  cases hf : findOneCart db uid with
  | some c =>
    rw [get_cart_found hf]
    refine ⟨?_, hf, ?_, ?_⟩
    · have := List.find?_some hf
      simpa using this
    · intro c' hc'
      cases hc'
      rfl
    · intro hnone
      cases hnone
  | none =>
    rw [get_cart_not_found hf]
    refine ⟨rfl, ?_, ?_, fun _ => ⟨rfl, rfl⟩⟩
    · unfold findOneCart at hf ⊢
      simp [List.find?_append, hf]
    · intro c' hc'
      cases hc'

/-- C5 witness: fetching the cart of a user with no cart in an empty store
creates and returns the empty cart. -/
theorem get_cart_get_or_create_witness :
    (get_cart (emptyDB (α := Unit)) "u1").1 = ⟨0, "u1", []⟩ ∧
    (get_cart (emptyDB (α := Unit)) "u1").2.carts = [⟨0, "u1", []⟩] := by
  have h := get_cart_get_or_create (emptyDB (α := Unit)) "u1"
  have h2 := h.2.2.2 (by decide)
  simpa using h2

/-- C7: at most one cart document per user: for a user with no cart,
calling `get_cart` twice returns the same cart both times, the second call
changes nothing, exactly one document is created, and no sequence of
exposed operations from the empty store produces two cart documents with
the same user id. -/
theorem one_cart_per_user {α : Type} (db : DB α) (uid : String)
    (ops : List (Op α)) (h : findOneCart db uid = none) :
    (get_cart (get_cart db uid).2 uid).1 = (get_cart db uid).1 ∧
    (get_cart (get_cart db uid).2 uid).2 = (get_cart db uid).2 ∧
    (get_cart db uid).2.carts.length = db.carts.length + 1 ∧
    ((runOps (emptyDB (α := α)) ops).carts.map (fun c => c.user_id)).Nodup := by
  have h1 := get_cart_not_found h
  have h2 : findOneCart (get_cart db uid).2 uid =
      some ⟨db.nextId, uid, []⟩ := by
    rw [h1]
    unfold findOneCart at h ⊢
    simp [List.find?_append, h]
  refine ⟨?_, ?_, ?_, ?_⟩
  · rw [get_cart_found h2, h1]
  · rw [get_cart_found h2]
  · rw [h1]
    simp
  · refine runOps_usersNodup ops ?_
    unfold usersNodup emptyDB
    simp

/-- C7 witness: two fetches for `u1` on the empty store agree, and a
concrete operation sequence keeps cart user ids unique. -/
theorem one_cart_per_user_witness :
    (get_cart (get_cart (emptyDB (α := Unit)) "u1").2 "u1").1 =
      (get_cart (emptyDB (α := Unit)) "u1").1 ∧
    (get_cart (get_cart (emptyDB (α := Unit)) "u1").2 "u1").2 =
      (get_cart (emptyDB (α := Unit)) "u1").2 ∧
    (get_cart (emptyDB (α := Unit)) "u1").2.carts.length =
      (emptyDB (α := Unit)).carts.length + 1 ∧
    ((runOps (emptyDB (α := Unit))
        [Op.opGetCart "u1", Op.opAddItem "u1" "p1" 2,
         Op.opAddItem "u2" "p1" 1,
         Op.opCreateOrder "u1" [()] 5 "cod" ()]).carts.map
      (fun c => c.user_id)).Nodup :=
  one_cart_per_user (emptyDB (α := Unit)) "u1"
    [Op.opGetCart "u1", Op.opAddItem "u1" "p1" 2, Op.opAddItem "u2" "p1" 1,
     Op.opCreateOrder "u1" [()] 5 "cod" ()] (by decide)

/-- C4 counterexample: the claim fails on the code as stated: `add_to_cart`
performs no validation of `qty` (CartItemPayload only requires an int), so
a single `addItem(u1, p1, 0)` from the empty store reaches a cart state
holding an item with `qty = 0 < 1`. -/
theorem cart_invariant_counterexample :
    ∃ c ∈ (runOps (emptyDB (α := Unit)) [Op.opAddItem "u1" "p1" 0]).carts,
      ∃ it ∈ c.items, ¬(1 ≤ it.qty) := by
  decide

/-- C4 (amended): every reachable cart state has pairwise-distinct product
ids among its line items; and when every `addItem` of the sequence carries
a positive quantity, every line item of every reachable cart has
`qty ≥ 1`.  (The unconditional `qty ≥ 1` of the original claim fails
because the code accepts non-positive quantities unvalidated.) -/
theorem reachable_cart_invariant {α : Type} (ops : List (Op α)) :
    cartsNodupPid (runOps (emptyDB (α := α)) ops) ∧
    ((∀ op ∈ ops, posOp op) → cartsQtyPos (runOps (emptyDB (α := α)) ops)) := by
  constructor
  · refine runOps_cartsNodupPid ops ?_
    intro c hc
    simp [emptyDB] at hc
  · intro hq
    refine runOps_cartsQtyPos ?_ hq
    intro c hc
    simp [emptyDB] at hc

/-- C4 witness: a concrete all-positive operation sequence reaches a state
satisfying both invariant parts. -/
theorem reachable_cart_invariant_witness :
    cartsNodupPid (runOps (emptyDB (α := Unit))
      [Op.opAddItem "u1" "p1" 2, Op.opAddItem "u1" "p1" 3,
       Op.opAddItem "u1" "p2" 1, Op.opGetCart "u2"]) ∧
    cartsQtyPos (runOps (emptyDB (α := Unit))
      [Op.opAddItem "u1" "p1" 2, Op.opAddItem "u1" "p1" 3,
       Op.opAddItem "u1" "p2" 1, Op.opGetCart "u2"]) := by
  have h := reachable_cart_invariant (α := Unit)
    [Op.opAddItem "u1" "p1" 2, Op.opAddItem "u1" "p1" 3,
     Op.opAddItem "u1" "p2" 1, Op.opGetCart "u2"]
  exact ⟨h.1, h.2 (by decide)⟩

/-- C8: orders are immutable through the exposed API: after `create_order`
returns, reading the order back by its id — after any sequence of exposed
operations — yields exactly the created document: the caller's `items` and
`total`, and status `"new"` (the request body cannot carry a status, and no
exposed operation ever rewrites an order). -/
theorem order_immutable {α : Type} (db : DB α) (uid : String) (its : List α)
    (total : Int) (pm : String) (addr : α) (ops : List (Op α))
    (hb : ∀ q ∈ db.orders, q.1 < db.nextId) :
    (runOps (create_order db uid its total pm addr).2 ops).orders.find?
        (fun q => q.1 == (create_order db uid its total pm addr).1) =
      some ((create_order db uid its total pm addr).1,
        ⟨uid, its, total, "new", pm, addr⟩) := by
  have hnone : db.orders.find? (fun q => q.1 == db.nextId) = none := by
    rw [List.find?_eq_none]
    intro x hx
    have := hb x hx
    simp
    omega
  have h1 : (create_order db uid its total pm addr).2.orders.find?
      (fun q => q.1 == db.nextId) =
      some (db.nextId, ⟨uid, its, total, "new", pm, addr⟩) := by
    show (updateOneCartUpsert (create_document_order db
      ⟨uid, its, total, "new", pm, addr⟩).2 uid []).orders.find? _ = _
    rw [updateOne_orders]
    show (db.orders ++ [(db.nextId, _)]).find? _ = _
    simp [List.find?_append, hnone]
  rcases runOps_orders (create_order db uid its total pm addr).2 ops with
    ⟨tail, htail⟩
  show (runOps (create_order db uid its total pm addr).2 ops).orders.find?
      (fun q => q.1 == db.nextId) = some (db.nextId,
        ⟨uid, its, total, "new", pm, addr⟩)
  rw [htail, List.find?_append, h1]
  rfl

/-- C8 witness: an order created on the empty store reads back unchanged
after further cart and order operations. -/
theorem order_immutable_witness :
    (runOps (create_order (emptyDB (α := Unit)) "u1" [()] 5 "cod" ()).2
        [Op.opAddItem "u1" "p1" 1, Op.opCreateOrder "u1" [()] 7 "cod" (),
         Op.opGetCart "u1"]).orders.find?
        (fun q => q.1 ==
          (create_order (emptyDB (α := Unit)) "u1" [()] 5 "cod" ()).1) =
      some ((create_order (emptyDB (α := Unit)) "u1" [()] 5 "cod" ()).1,
        ⟨"u1", [()], 5, "new", "cod", ()⟩) :=
  order_immutable (emptyDB (α := Unit)) "u1" [()] 5 "cod" ()
    [Op.opAddItem "u1" "p1" 1, Op.opCreateOrder "u1" [()] 7 "cod" (),
     Op.opGetCart "u1"] (by decide)

/-- C9 counterexample: `create_order` performs no non-negativity check on
`total`: a request with `total = -1` is accepted and the persisted order
carries the negative total. -/
theorem order_negative_total_persisted :
    ((create_order (emptyDB (α := Unit)) "u1" [] (-1) "cod" ()).2.orders.map
      (fun q => q.2.total)) = [-1] ∧ ((-1 : Int) < 0) := by
  constructor
  · rfl
  · decide

/-- C9 (amended): the persisted order's `total` is exactly the
caller-supplied `total`, of whatever sign: `create_order` validates
nothing, so the persisted total is non-negative only when the caller's
total is. -/
theorem order_total_passthrough {α : Type} (db : DB α) (uid : String)
    (its : List α) (total : Int) (pm : String) (addr : α) :
    (create_order db uid its total pm addr).2.orders.map
        (fun q => q.2.total) =
      db.orders.map (fun q => q.2.total) ++ [total] := by
  show (updateOneCartUpsert (create_document_order db
    ⟨uid, its, total, "new", pm, addr⟩).2 uid []).orders.map _ = _
  rw [updateOne_orders]
  simp [create_document_order]

/-- C10: the claimed concurrent-add safety fails on the code: interleaving
the two read-modify-write sequences of two `add_to_cart(u1, p1, 1)` calls
on a fresh cart as read-read-write-write leaves `p1` with `qty = 1` — the
second write overwrites the first (lost update) — whereas running the two
calls sequentially yields `qty = 2`. -/
theorem concurrent_add_lost_update :
    findOneCart (twoConcurrentAdds (emptyDB (α := Unit)) "u1" "p1") "u1" =
      some ⟨0, "u1", [⟨"p1", 1⟩]⟩ ∧
    findOneCart (add_to_cart (add_to_cart (emptyDB (α := Unit))
        "u1" "p1" 1) "u1" "p1" 1) "u1" =
      some ⟨0, "u1", [⟨"p1", 2⟩]⟩ := by
  constructor
  · rfl
  · rfl
